import Mathlib

/-!
Verification of the batch-allocation service (cosmic_code repository).

The repository's core domain module (`domain/model.py`, imported throughout as
`from domain.model import Batch, OrderLine, allocate_batch, OutOfStockError`)
is not present in the source tree; only its callers (`service_layer/services.py`,
`main.py`, `db/orm.py`) and its tests are.  Definitions for the missing module
are therefore modelled from the spec, as marked in their doc comments.
Everything else (`is_valid_sku`, `allocate` in services.py, the endpoint's
error mapping in main.py, `perform_mapping` in db/orm.py) is translated
directly from the source.
-/

namespace CosmicCode

/-- Modelled from the spec: `OrderLine` from the missing `domain/model.py` —
a value object with identity by (`orderid`, `sku`, `qty`) tuple equality;
`qty` is a non-negative integer (spec §3, §4.2 numeric semantics). -/
structure OrderLine where
  orderid : String
  sku : String
  qty : Nat
deriving DecidableEq, Repr

/-- Modelled from the spec: `Batch` from the missing `domain/model.py`.
`eta : Option Nat` models `Optional[date]` with dates as ordinals (`none`
means in stock).  `allocations` models the Python `set` of `OrderLine` as a
duplicate-free list: insertion is insert-if-absent (set semantics). -/
structure Batch where
  reference : String
  sku : String
  purchased_quantity : Nat
  eta : Option Nat
  allocations : List OrderLine
deriving DecidableEq, Repr

/-- Modelled from the spec: sum of `qty` over the batch's current
allocations (spec §3: the subtrahend of `available_quantity`). -/
def Batch.allocated_quantity (b : Batch) : Int :=
  (b.allocations.map (fun l => (l.qty : Int))).sum

/-- Modelled from the spec: `available_quantity` — derived, always recomputed:
`purchased_quantity` minus the sum of `qty` over current `allocations`
(spec §3, §4.1). -/
def Batch.available_quantity (b : Batch) : Int :=
  (b.purchased_quantity : Int) - b.allocated_quantity

/-- Modelled from the spec: `can_allocate(line)` — true iff
`line.sku == self.sku` and `self.available_quantity >= line.qty`
(spec §4.1).  A pure Boolean predicate. -/
def Batch.can_allocate (b : Batch) (line : OrderLine) : Bool :=
  line.sku == b.sku && decide ((line.qty : Int) ≤ b.available_quantity)

/-- Modelled from the spec: the batch-level `allocate(line)` — if
`can_allocate(line)`, insert the line into `allocations` (a no-op when
already present, by set semantics); otherwise a silent no-op, never an
error (spec §4.1). -/
def Batch.allocate (b : Batch) (line : OrderLine) : Batch :=
  if b.can_allocate line then
    if line ∈ b.allocations then b
    else { b with allocations := line :: b.allocations }
  else b

/-- A sequence of batch-level `allocate` calls against one batch
(spec §8 capacity invariant: "for all sequences of `allocate` calls"). -/
def allocateAll (b : Batch) (lines : List OrderLine) : Batch :=
  lines.foldl Batch.allocate b

/-- Modelled from the spec: the priority order on etas used to sort batches —
`none` (in stock) sorts before any concrete date; between two concrete
dates the earlier sorts first (spec §4.1 ordering). -/
def etaLE : Option Nat → Option Nat → Bool
  | none, _ => true
  | some _, none => false
  | some x, some y => decide (x ≤ y)

/-- The priority relation on batches induced by `etaLE`. -/
def batchPriority (a b : Batch) : Prop := etaLE a.eta b.eta = true

instance : DecidableRel batchPriority :=
  fun a b => inferInstanceAs (Decidable (etaLE a.eta b.eta = true))

/-- Modelled from the spec: `sorted(batches)` in the allocation algorithm —
a stable sort of the candidates by the priority ordering (spec §4.2 step 2). -/
def sortBatches (batches : List Batch) : List Batch :=
  List.insertionSort batchPriority batches

/-- Modelled from the spec: the first-fit scan of the allocation algorithm
(spec §4.2 step 3): scan the list in order; the first batch for which
`can_allocate` holds is chosen and mutated via the batch-level `allocate`;
`none` when no batch fits.  Returns the chosen batch (pre-mutation) and
the collection with exactly that batch updated in place. -/
def scanAllocate (line : OrderLine) : List Batch → Option (Batch × List Batch)
  | [] => none
  | b :: bs =>
    if b.can_allocate line then some (b, b.allocate line :: bs)
    else (scanAllocate line bs).map (fun p => (p.1, b :: p.2))

/-- Modelled from the spec: `allocate_batch(line, batches)` from the missing
`domain/model.py` (spec §4.2): sort the candidates, first-fit select, mutate
the chosen batch and return its reference; raise `OutOfStockError` carrying
the line's SKU when no batch fits.  The `Except.error` branch models the
exception: it is raised before any batch is mutated, so the collection
component is the input unchanged. -/
def allocate_batch (line : OrderLine) (batches : List Batch) :
    Except String String × List Batch :=
  match scanAllocate line (sortBatches batches) with
  | none => (Except.error line.sku, batches)
  | some (chosen, updated) => (Except.ok chosen.reference, updated)

/-- The two business-rejection kinds: `InvalidSku` from
`service_layer/services.py` and `OutOfStockError` from the domain layer
(spec §7), each carrying the offending SKU. -/
inductive ServiceError where
  | invalidSku (sku : String)
  | outOfStock (sku : String)
deriving DecidableEq, Repr

/-- From `service_layer/services.py`: `is_valid_sku(sku, batches)` — membership
of `sku` in the set of the batches' SKUs. -/
def is_valid_sku (sku : String) (batches : List Batch) : Bool :=
  batches.any (fun b => b.sku == sku)

/-- From `service_layer/services.py`: the service-level `allocate` — build the
`OrderLine` from `(orderid, sku, qty)`, raise `InvalidSku` when no batch has
the SKU, otherwise run `allocate_batch` (which may raise `OutOfStockError`).
The repository's `repo.list()` is passed as the `batches` list; the session
commit has no effect on the returned data.  The pair's second component is
the batch collection after the call. -/
def services_allocate (orderid sku : String) (qty : Nat) (batches : List Batch) :
    Except ServiceError String × List Batch :=
  if is_valid_sku sku batches then
    match allocate_batch ⟨orderid, sku, qty⟩ batches with
    | (Except.error s, bs) => (Except.error (ServiceError.outOfStock s), bs)
    | (Except.ok r, bs) => (Except.ok r, bs)
  else
    (Except.error (ServiceError.invalidSku sku), batches)

/-- An HTTP response as produced by the endpoint in `main.py`: a status code
and a body string. -/
structure HttpResponse where
  status : Nat
  body : String
deriving DecidableEq, Repr

/-- From `main.py` lines 56-60: the endpoint's translation of the allocation
call's outcome — success becomes a 201 response carrying the batch
reference; `OutOfStockError` and `InvalidSku` are both caught and re-raised
as `HTTPException(status_code=400, detail=str(e))`. -/
def allocate_endpoint_response (outcome : Except ServiceError String) : HttpResponse :=
  match outcome with
  | Except.ok ref => ⟨201, ref⟩
  | Except.error (ServiceError.invalidSku s) => ⟨400, "Invalid sku " ++ s⟩
  | Except.error (ServiceError.outOfStock s) => ⟨400, "Out of stock for sku " ++ s⟩

/-- The module-level state of `db/orm.py`: the `_mapping_state` dict's
`"configured"` entry, the module-level `_mappings_configured` flag, and a
count of how many times the pair of `map_imperatively` calls has run
(SQLAlchemy raises if a class is mapped imperatively twice, so a count
above 1 is a re-mapping). -/
structure OrmState where
  mapping_state_configured : Bool
  mappings_configured_global : Bool
  times_mapped : Nat
deriving DecidableEq, Repr

/-- The state at module import: both flags `False` (orm.py lines 8-9),
nothing mapped yet. -/
def initialOrmState : OrmState := ⟨false, false, 0⟩

/-- From `db/orm.py` lines 39-74: `perform_mapping()` — return early when
`_mapping_state["configured"]` is truthy; otherwise run the two
`map_imperatively` calls.  The statement `_mappings_configured = True`
inside the function body binds a fresh local variable (there is no
`global` declaration), so neither module-level flag is ever written. -/
def perform_mapping (s : OrmState) : OrmState :=
  if s.mapping_state_configured then s
  else { s with times_mapped := s.times_mapped + 1 }

/-- Python positional-call compatibility: a call with no keyword arguments and
no defaulted parameters succeeds only when the number of arguments supplied
equals the number of parameters; otherwise `TypeError` is raised at the
call site. -/
def pythonPositionalCallOk (parameterCount argumentCount : Nat) : Bool :=
  parameterCount == argumentCount

/-- From `service_layer/services.py` lines 28-34: `allocate` declares five
parameters `(orderid, sku, qty, repo, session)`, none with a default. -/
def servicesAllocateParamCount : Nat := 5

/-- From `main.py` line 57: the endpoint calls `allocate(orderline, repo,
session)` — three positional arguments.  (The unit tests in
`tests/unit/test_services.py` use the same three-argument convention.) -/
def endpointAllocateArgCount : Nat := 3

/-! ### Helper lemmas -/

theorem etaLE_refl (e : Option Nat) : etaLE e e = true := by
  cases e <;> simp [etaLE]

theorem etaLE_total (a b : Option Nat) : etaLE a b = true ∨ etaLE b a = true := by
  cases a <;> cases b <;> simp [etaLE]
  omega

theorem etaLE_trans {a b c : Option Nat} (h1 : etaLE a b = true) (h2 : etaLE b c = true) :
    etaLE a c = true := by
  cases a <;> cases b <;> cases c <;> simp_all [etaLE]
  omega

instance : IsTotal Batch batchPriority :=
  ⟨fun a b => etaLE_total a.eta b.eta⟩

instance : IsTrans Batch batchPriority :=
  ⟨fun _ _ _ h1 h2 => etaLE_trans h1 h2⟩

theorem sorted_sortBatches (bs : List Batch) :
    List.Sorted batchPriority (sortBatches bs) :=
  List.sorted_insertionSort batchPriority bs

theorem mem_sortBatches {b : Batch} {bs : List Batch} :
    b ∈ sortBatches bs ↔ b ∈ bs :=
  List.mem_insertionSort batchPriority

theorem scanAllocate_eq_none_iff (line : OrderLine) (l : List Batch) :
    scanAllocate line l = none ↔ ∀ b ∈ l, b.can_allocate line = false := by
  induction l with
  | nil => simp [scanAllocate]
  | cons b bs ih =>
    by_cases hb : b.can_allocate line
    · simp [scanAllocate, hb]
    · simp only [scanAllocate, if_neg hb, Option.map_eq_none', List.mem_cons]
      constructor
      · intro h x hx
        rcases hx with rfl | hx
        · exact Bool.not_eq_true _ |>.mp hb
        · exact (ih.mp h) x hx
      · intro h
        exact ih.mpr (fun x hx => h x (Or.inr hx))

theorem scanAllocate_eq_some (line : OrderLine) (l : List Batch)
    (chosen : Batch) (rest : List Batch)
    (h : scanAllocate line l = some (chosen, rest)) :
    ∃ l1 l2, l = l1 ++ chosen :: l2
      ∧ (∀ x ∈ l1, x.can_allocate line = false)
      ∧ chosen.can_allocate line = true
      ∧ rest = l1 ++ chosen.allocate line :: l2 := by
  induction l generalizing rest with
  | nil => simp [scanAllocate] at h
  | cons b bs ih =>
    by_cases hb : b.can_allocate line
    · simp only [scanAllocate, if_pos hb, Option.some.injEq, Prod.mk.injEq] at h
      obtain ⟨rfl, rfl⟩ := h
      exact ⟨[], bs, rfl, by simp, hb, rfl⟩
    · simp only [scanAllocate, if_neg hb, Option.map_eq_some'] at h
      obtain ⟨⟨c, rest0⟩, hscan, heq⟩ := h
      simp only [Prod.mk.injEq] at heq
      obtain ⟨rfl, rfl⟩ := heq
      obtain ⟨l1, l2, rfl, hfail, hfit, rfl⟩ := ih rest0 hscan
      exact ⟨b :: l1, l2, rfl,
        by
          intro x hx
          rcases List.mem_cons.mp hx with rfl | hx
          · exact Bool.not_eq_true _ |>.mp hb
          · exact hfail x hx,
        hfit, rfl⟩

theorem is_valid_sku_iff (sku : String) (batches : List Batch) :
    is_valid_sku sku batches = true ↔ ∃ b ∈ batches, b.sku = sku := by
  simp [is_valid_sku]

theorem allocate_preserves_nonneg (b : Batch) (line : OrderLine)
    (h : 0 ≤ b.available_quantity) : 0 ≤ (b.allocate line).available_quantity := by
  unfold Batch.allocate
  by_cases hc : b.can_allocate line
  · by_cases hm : line ∈ b.allocations
    · simp [hc, hm, h]
    · have hle : (line.qty : Int) ≤ b.available_quantity := by
        have := hc
        unfold Batch.can_allocate at this
        simp only [Bool.and_eq_true, decide_eq_true_eq] at this
        exact this.2
      simp only [hc, hm, if_true, if_false]
      unfold Batch.available_quantity Batch.allocated_quantity at *
      simp only [List.map_cons, List.sum_cons]
      omega
  · simp [hc, h]

theorem allocateAll_nonneg (lines : List OrderLine) (b : Batch)
    (h : 0 ≤ b.available_quantity) : 0 ≤ (allocateAll b lines).available_quantity := by
  induction lines generalizing b with
  | nil => exact h
  | cons l ls ih =>
    exact ih (b.allocate l) (allocate_preserves_nonneg b l h)

/-! ### Claim theorems -/

/-- C4: for every batch constructed with empty allocations and every sequence
of batch-level `allocate` calls against it, `available_quantity` equals
`purchased_quantity` minus the sum of `qty` over the lines currently in
`allocations`, and it never goes negative. -/
theorem capacity_invariant (ref sku : String) (pq : Nat) (eta : Option Nat)
    (lines : List OrderLine) :
    (allocateAll ⟨ref, sku, pq, eta, []⟩ lines).available_quantity =
        ((allocateAll ⟨ref, sku, pq, eta, []⟩ lines).purchased_quantity : Int)
          - ((allocateAll ⟨ref, sku, pq, eta, []⟩ lines).allocations.map
              (fun l => (l.qty : Int))).sum
      ∧ 0 ≤ (allocateAll ⟨ref, sku, pq, eta, []⟩ lines).available_quantity := by
  constructor
  · rfl
  · apply allocateAll_nonneg
    unfold Batch.available_quantity Batch.allocated_quantity
    simp

/-- C5: calling the batch-level `allocate(line)` twice with the same line
yields the same `allocations` set, and hence the same `available_quantity`,
as calling it once. -/
theorem allocate_idempotent (b : Batch) (line : OrderLine) :
    ((b.allocate line).allocate line).allocations = (b.allocate line).allocations
      ∧ ((b.allocate line).allocate line).available_quantity
          = (b.allocate line).available_quantity := by
  have key : (b.allocate line).allocate line = b.allocate line := by
    unfold Batch.allocate
    by_cases hc : b.can_allocate line
    · by_cases hm : line ∈ b.allocations
      · simp [hc, hm]
      · simp only [hc, hm, if_true, if_false]
        by_cases hc2 :
            ({ b with allocations := line :: b.allocations } : Batch).can_allocate line
        · simp [hc2]
        · simp [hc2]
    · simp [hc]
  rw [key]
  exact ⟨rfl, rfl⟩

/-- C6: `can_allocate(line)` returns true iff `line.sku` equals the batch's
`sku` and `available_quantity` is at least `line.qty`; it is a pure Boolean
function of the batch (type `Batch → OrderLine → Bool`), so no state can
change. -/
theorem can_allocate_iff (b : Batch) (line : OrderLine) :
    b.can_allocate line = true ↔
      line.sku = b.sku ∧ (line.qty : Int) ≤ b.available_quantity := by
  simp [Batch.can_allocate]

/-- C7: when `can_allocate(line)` is false, the batch-level `allocate(line)`
returns the batch unchanged — in particular `allocations` is unchanged —
and, being a total function into `Batch` (not `Except`), raises no error. -/
theorem allocate_noop_of_cannot (b : Batch) (line : OrderLine)
    (h : b.can_allocate line = false) : b.allocate line = b := by
  simp [Batch.allocate, h]

/-- Witness for C7: a batch with one remaining unit cannot take a
five-unit line, and allocating is a silent no-op. -/
theorem allocate_noop_of_cannot_witness :
    (⟨"b1", "SMALL-TABLE", 1, none, []⟩ : Batch).allocate ⟨"o1", "SMALL-TABLE", 5⟩
      = ⟨"b1", "SMALL-TABLE", 1, none, []⟩ :=
  allocate_noop_of_cannot ⟨"b1", "SMALL-TABLE", 1, none, []⟩ ⟨"o1", "SMALL-TABLE", 5⟩
    (by decide)

/-- C9: both business-rejection kinds raised by the allocation call —
`InvalidSku` and `OutOfStockError` — are mapped by the endpoint's
`except` clause to an HTTP 400 response, a client error (4xx), never a
5xx server fault. -/
theorem errors_mapped_to_client_error (e : ServiceError) :
    400 ≤ (allocate_endpoint_response (Except.error e)).status
      ∧ (allocate_endpoint_response (Except.error e)).status < 500 := by
  cases e <;> simp [allocate_endpoint_response]

/-- C8 (failing evaluation): the endpoint passes three positional arguments
`(orderline, repo, session)` to `service_layer.services.allocate`, whose
signature declares five parameters `(orderid, sku, qty, repo, session)`
with no defaults, so the call raises `TypeError` instead of reaching the
allocation logic. -/
theorem endpoint_service_call_arity_mismatch :
    pythonPositionalCallOk servicesAllocateParamCount endpointAllocateArgCount = false :=
  rfl

/-- C10 (failing evaluation): calling `perform_mapping` twice from the
module's initial state runs the `map_imperatively` pair twice — the guard
`_mapping_state["configured"]` is still `False` after the first call, so
the second call does not return early. -/
theorem perform_mapping_runs_again :
    perform_mapping (perform_mapping initialOrmState)
      = ⟨false, false, 2⟩ ∧ (perform_mapping initialOrmState).mapping_state_configured = false :=
  ⟨rfl, rfl⟩

/-- C1: whenever some candidate can accommodate the line, the algorithm
selects a batch that fits the line and whose eta is minimal in the
priority order among all fitting candidates — so an in-stock batch
(`eta = None`) is chosen in preference to any batch with a concrete eta,
and among concrete etas the earliest date wins. -/
theorem priority_selection (line : OrderLine) (batches : List Batch)
    (hfit : ∃ b ∈ batches, b.can_allocate line = true) :
    ∃ (chosen : Batch) (rest : List Batch),
      allocate_batch line batches = (Except.ok chosen.reference, rest)
      ∧ chosen.can_allocate line = true
      ∧ ∀ b ∈ batches, b.can_allocate line = true → etaLE chosen.eta b.eta = true := by
  cases hs : scanAllocate line (sortBatches batches) with
  | none =>
    exfalso
    obtain ⟨b, hb, hcan⟩ := hfit
    have := (scanAllocate_eq_none_iff line (sortBatches batches)).mp hs b
      (mem_sortBatches.mpr hb)
    rw [hcan] at this
    exact Bool.true_eq_false.mp this
  | some p =>
    obtain ⟨chosen, rest0⟩ := p
    refine ⟨chosen, rest0, ?_, ?_, ?_⟩
    · unfold allocate_batch
      rw [hs]
    · obtain ⟨-, -, -, -, hcfit, -⟩ :=
        scanAllocate_eq_some line (sortBatches batches) chosen rest0 hs
      exact hcfit
    · obtain ⟨l1, l2, hsplit, hfail, hcfit, -⟩ :=
        scanAllocate_eq_some line (sortBatches batches) chosen rest0 hs
      intro b hb hcan
      have hbmem : b ∈ sortBatches batches := mem_sortBatches.mpr hb
      rw [hsplit] at hbmem
      rcases List.mem_append.mp hbmem with h1 | h2
      · rw [hfail b h1] at hcan
        exact absurd hcan (by simp)
      · rcases List.mem_cons.mp h2 with rfl | h2
        · exact etaLE_refl _
        · have hsorted : List.Pairwise batchPriority (l1 ++ chosen :: l2) := by
            have hs2 := sorted_sortBatches batches
            rw [hsplit] at hs2
            exact hs2
          have hp := (List.pairwise_append.mp hsorted).2.1
          exact (List.pairwise_cons.mp hp).1 b h2

/-- Witness for C1: against batches with etas 2025-02-01 (day 58 of 2025),
`None`, and 2025-01-27 (day 27), all of which fit a 10-unit line, the
algorithm picks the in-stock batch. -/
theorem priority_selection_witness :
    ∃ (chosen : Batch) (rest : List Batch),
      allocate_batch ⟨"order1", "LAMP", 10⟩
          [⟨"b-feb", "LAMP", 100, some 58, []⟩, ⟨"b-none", "LAMP", 100, none, []⟩,
           ⟨"b-jan", "LAMP", 100, some 27, []⟩]
        = (Except.ok chosen.reference, rest)
      ∧ chosen.can_allocate ⟨"order1", "LAMP", 10⟩ = true
      ∧ ∀ b ∈ [(⟨"b-feb", "LAMP", 100, some 58, []⟩ : Batch),
               ⟨"b-none", "LAMP", 100, none, []⟩, ⟨"b-jan", "LAMP", 100, some 27, []⟩],
          b.can_allocate ⟨"order1", "LAMP", 10⟩ = true →
            etaLE chosen.eta b.eta = true :=
  priority_selection ⟨"order1", "LAMP", 10⟩
    [⟨"b-feb", "LAMP", 100, some 58, []⟩, ⟨"b-none", "LAMP", 100, none, []⟩,
     ⟨"b-jan", "LAMP", 100, some 27, []⟩]
    (by decide)

/-- C2: when at least one batch carries the line's SKU but no batch can
accommodate the line's quantity, the service-level allocation fails with
`OutOfStockError` carrying that SKU and returns the batch collection
unchanged — no batch's `allocations` is touched (no partial allocation). -/
theorem out_of_stock_atomic (orderid sku : String) (qty : Nat) (batches : List Batch)
    (hsku : ∃ b ∈ batches, b.sku = sku)
    (hno : ∀ b ∈ batches, b.can_allocate ⟨orderid, sku, qty⟩ = false) :
    services_allocate orderid sku qty batches
      = (Except.error (ServiceError.outOfStock sku), batches) := by
  have hv : is_valid_sku sku batches = true := (is_valid_sku_iff sku batches).mpr hsku
  have hnone : scanAllocate ⟨orderid, sku, qty⟩ (sortBatches batches) = none :=
    (scanAllocate_eq_none_iff _ _).mpr (fun b hb => hno b (mem_sortBatches.mp hb))
  unfold services_allocate allocate_batch
  rw [hnone, hv]
  simp

/-- Witness for C2 (the spec's exhaustion example): one batch with
`purchased_quantity = 10`, a line for 20 of the same SKU. -/
theorem out_of_stock_atomic_witness :
    services_allocate "order1" "LAMP" 20 [⟨"batch1", "LAMP", 10, none, []⟩]
      = (Except.error (ServiceError.outOfStock "LAMP"),
         [⟨"batch1", "LAMP", 10, none, []⟩]) :=
  out_of_stock_atomic "order1" "LAMP" 20 [⟨"batch1", "LAMP", 10, none, []⟩]
    (by decide) (by decide)

/-- C3: the service-level allocation fails with `InvalidSku` carrying the
line's SKU if and only if no batch in the collection has that SKU. -/
theorem invalid_sku_iff_unknown (orderid sku : String) (qty : Nat) (batches : List Batch) :
    (services_allocate orderid sku qty batches).1
        = Except.error (ServiceError.invalidSku sku)
      ↔ ∀ b ∈ batches, b.sku ≠ sku := by
  by_cases hv : is_valid_sku sku batches = true
  · constructor
    · intro h
      exfalso
      rcases hab : allocate_batch ⟨orderid, sku, qty⟩ batches with ⟨res, bs⟩
      unfold services_allocate at h
      rw [hv, hab] at h
      cases res <;> simp at h
    · intro h
      obtain ⟨b, hb, hbs⟩ := (is_valid_sku_iff sku batches).mp hv
      exact absurd hbs (h b hb)
  · have hv' : is_valid_sku sku batches = false := by
      simpa using hv
    constructor
    · intro _ b hb heq
      exact hv ((is_valid_sku_iff sku batches).mpr ⟨b, hb, heq⟩)
    · intro _
      unfold services_allocate
      rw [hv']
      rfl

end CosmicCode
